import Mathlib

/-!
Verification of the `open_edx_api_extension` repository.

Shallow embedding of:
- `data.py` : `get_course_enrollments` (the plain enrollment listing) and
  `get_user_proctored_exams` (the per-user proctored-exam aggregation);
- `views.py` : `SSOEnrollmentListView.get` (enrollment listing endpoint) and
  `PaidMassEnrollment.post` (the bulk "enroll to verified mode" endpoint).

Host-platform services (the Django ORM queryset over `CourseEnrollment`, the
proctoring registry `get_all_exams_for_course`, the course catalog, the
enrollment API `get_enrollment` / `update_enrollment`, the embargo check) are
modelled as explicit data / functions in an environment record, with the
queryset represented as a list in storage order: `filter(...)` keeps storage
order and only an explicit `order_by('created')` sorts.
-/

namespace OpenEdxApiExt

/-- A dynamic-language value, as needed to model the truthiness-based
defaulting `request.user.is_staff and None or request.user.username` in
`SSOEnrollmentListView.get` (views.py line 245). -/
inductive PyVal where
  | none
  | bool (b : Bool)
  | str (s : String)
deriving DecidableEq

/-- Python truthiness: `None`, `False` and the empty string are falsy. -/
def truthy : PyVal → Bool
  | .none => false
  | .bool b => b
  | .str s => !s.isEmpty

/-- Python `and`: returns the second operand when the first is truthy,
otherwise the first. -/
def pyAnd (a b : PyVal) : PyVal := if truthy a then b else a

/-- Python `or`: returns the first operand when it is truthy, otherwise the
second. -/
def pyOr (a b : PyVal) : PyVal := if truthy a then a else b

/-- The string a value renders as under `str()` / `format()`. -/
def PyVal.pyStr : PyVal → String
  | .none => "None"
  | .bool true => "True"
  | .bool false => "False"
  | .str s => s

/-- Extract the username string when the value is a string. -/
def pyToStr : PyVal → Option String
  | .str s => some s
  | _ => Option.none

/-- A row of the host `CourseEnrollment` table (the `EnrollmentRecord` of the
data model), as read/written through the enrollment service. `created` is the
creation timestamp used by `order_by('created')`. -/
structure Enrollment where
  username : String
  course_id : String
  mode : String
  is_active : Bool
  created : Nat
deriving DecidableEq

/-- The course-modes constant `CourseMode.VERIFIED` of the host platform. -/
def VERIFIED : String := "verified"

/-- data.py `get_course_enrollments(user_id=None, **kwargs)`:
`CourseEnrollment.objects.filter(is_active=True, **kwargs)` (the optional
`course_id` arrives through `kwargs`), then the optional
`.filter(user__username=user_id)`, then `.order_by('created')`.
The serializer maps each row to a summary; we return the rows themselves. -/
def get_course_enrollments (db : List Enrollment) (user_id : Option String)
    (course_id : Option String) : List Enrollment :=
  let qset := db.filter (fun e =>
    e.is_active && (match course_id with
                    | Option.none => true
                    | some c => e.course_id == c))
  let qset := match user_id with
    | Option.none => qset
    | some u => qset.filter (fun e => e.username == u)
  List.insertionSort (fun a b => a.created ≤ b.created) qset

/-- The predicate a stored enrollment row must satisfy to be returned by
`get_course_enrollments`: active, plus the optional username and course
filters. -/
def matchesQuery (e : Enrollment) (user_id : Option String)
    (course_id : Option String) : Bool :=
  e.is_active
    && (match course_id with
        | Option.none => true
        | some c => e.course_id == c)
    && (match user_id with
        | Option.none => true
        | some u => e.username == u)

instance : IsTotal Enrollment (fun a b => a.created ≤ b.created) :=
  ⟨fun a b => Nat.le_total a.created b.created⟩

instance : IsTrans Enrollment (fun a b => a.created ≤ b.created) :=
  ⟨fun _ _ _ hab hbc => Nat.le_trans hab hbc⟩

/-- **C6.** For every stored table, every optional username filter and every
optional course filter, `ListActiveEnrollments` (`get_course_enrollments`)
returns exactly one record per matching active enrollment — exactly N records
when N rows match — and the returned list is sorted by enrollment creation
time. -/
theorem C6_list_active_enrollments (db : List Enrollment)
    (user_id course_id : Option String) :
    (get_course_enrollments db user_id course_id).length
        = (db.filter (fun e => matchesQuery e user_id course_id)).length
      ∧ List.Sorted (fun a b => a.created ≤ b.created)
        (get_course_enrollments db user_id course_id) := by
  constructor
  · unfold get_course_enrollments matchesQuery
    cases user_id with
    | none =>
        simp [List.length_insertionSort]
    | some u =>
        simp [List.length_insertionSort, List.filter_filter]
        congr 1
        apply List.filter_congr
        intro e _
        cases course_id <;> simp [Bool.and_comm, Bool.and_assoc, Bool.and_left_comm]
  · exact List.sorted_insertionSort _ _

/-- The request context of `SSOEnrollmentListView.get`: the two GET query
parameters and the authenticated requesting user. -/
structure GetReq where
  userParam : Option String
  courseRunParam : Option String
  requesterUsername : String
  requesterIsStaff : Bool
  hasApiKeyPerm : Bool
deriving DecidableEq

/-- Environment of the listing view: validity of course-run keys
(`CourseKey.from_string`) and whether the underlying enrollment query raises
`CourseEnrollmentError`. -/
structure SSOEnv where
  validCourseKey : String → Bool
  queryFails : Bool

/-- A response of the listing view with its HTTP status. -/
inductive GetResp where
  | ok (data : List Enrollment)
  | notFound
  | badRequest (msg : String)
deriving DecidableEq

/-- HTTP status code of a listing-view response. -/
def GetResp.httpStatus : GetResp → Nat
  | .ok _ => 200
  | .notFound => 404
  | .badRequest _ => 400

/-- views.py line 244-245: `request.GET.get('user',
request.user.is_staff and None or request.user.username)` — the username the
view will look up, as a dynamic value. -/
def lookupUsername (req : GetReq) : PyVal :=
  match req.userParam with
  | some s => .str s
  | Option.none =>
      pyOr (pyAnd (.bool req.requesterIsStaff) .none) (.str req.requesterUsername)

/-- views.py `SSOEnrollmentListView.get` (lines 237-270): resolve the lookup
username, try to parse `course_run` (an invalid or absent key becomes `None`),
return 404 when a non-staff requester without API-key permission asks about a
username other than their own, otherwise list enrollments through
`get_course_enrollments`, mapping a `CourseEnrollmentError` to a 400. -/
def sso_get (env : SSOEnv) (db : List Enrollment) (req : GetReq) : GetResp :=
  let username := lookupUsername req
  let course_key : Option String :=
    match req.courseRunParam with
    | Option.none => Option.none
    | some s => if env.validCourseKey s then some s else Option.none
  if (¬req.requesterIsStaff ∧ PyVal.str req.requesterUsername ≠ username)
      ∧ ¬req.hasApiKeyPerm then
    .notFound
  else if env.queryFails then
    .badRequest ("An error occurred while retrieving enrollments for user '"
      ++ username.pyStr ++ "'")
  else
    .ok (get_course_enrollments db (pyToStr username) course_key)

/-- **C8.** A non-staff requester without API-key permission who asks for
another user's enrollments gets HTTP 404 — the response is exactly the
404 `notFound` response, so in particular never a 400 or 403 — regardless of
the stored data, the course filter, or whether the query would fail. -/
theorem C8_cross_user_lookup_404 (env : SSOEnv) (db : List Enrollment)
    (req : GetReq) (u : String)
    (hstaff : req.requesterIsStaff = false)
    (hparam : req.userParam = some u)
    (hne : u ≠ req.requesterUsername)
    (hkey : req.hasApiKeyPerm = false) :
    sso_get env db req = GetResp.notFound
      ∧ (sso_get env db req).httpStatus = 404 := by
  have hlu : lookupUsername req = .str u := by
    unfold lookupUsername
    rw [hparam]
  have hcond : (¬req.requesterIsStaff
      ∧ PyVal.str req.requesterUsername ≠ lookupUsername req)
      ∧ ¬req.hasApiKeyPerm := by
    refine ⟨⟨by simp [hstaff], ?_⟩, by simp [hkey]⟩
    rw [hlu]
    intro h
    exact hne (by injection h with h; exact h.symm)
  have : sso_get env db req = GetResp.notFound := by
    unfold sso_get
    simp only [if_pos hcond]
  exact ⟨this, by rw [this]; rfl⟩

/-- Closed witness for C8: a concrete non-staff request for another user's
enrollments returns the 404 response. -/
theorem C8_witness :
    sso_get ⟨fun _ => true, false⟩ []
        ⟨some "bob", Option.none, "alice", false, false⟩ = GetResp.notFound
      ∧ (sso_get ⟨fun _ => true, false⟩ []
        ⟨some "bob", Option.none, "alice", false, false⟩).httpStatus = 404 :=
  C8_cross_user_lookup_404 ⟨fun _ => true, false⟩ []
    ⟨some "bob", Option.none, "alice", false, false⟩ "bob"
    rfl rfl (by decide) rfl

/-- **C9.** When the `user` query parameter is absent, the looked-up username
defaults to the requesting user's own username for every requester, staff or
not: the expression `is_staff and None or username` never evaluates to `None`,
and the username string actually used for the enrollment query is the
requester's own. -/
theorem C9_default_username_is_own (req : GetReq)
    (habsent : req.userParam = Option.none) :
    lookupUsername req = PyVal.str req.requesterUsername
      ∧ lookupUsername req ≠ PyVal.none
      ∧ pyToStr (lookupUsername req) = some req.requesterUsername := by
  have h : lookupUsername req = PyVal.str req.requesterUsername := by
    unfold lookupUsername
    rw [habsent]
    cases hs : req.requesterIsStaff <;> simp [pyAnd, pyOr, truthy]
  refine ⟨h, ?_, ?_⟩
  · rw [h]
    intro hc
    cases hc
  · rw [h]
    rfl

/-- Closed witness for C9: a staff request without the `user` parameter looks
up the staff user's own username, not `None`. -/
theorem C9_witness :
    lookupUsername ⟨Option.none, Option.none, "staffer", true, false⟩
        = PyVal.str "staffer"
      ∧ lookupUsername ⟨Option.none, Option.none, "staffer", true, false⟩
        ≠ PyVal.none
      ∧ pyToStr (lookupUsername ⟨Option.none, Option.none, "staffer", true, false⟩)
        = some "staffer" :=
  C9_default_username_is_own ⟨Option.none, Option.none, "staffer", true, false⟩ rfl

/-- A naive UTC datetime (what `datetime.strptime` builds). -/
structure DateTime where
  year : Nat
  month : Nat
  day : Nat
  hour : Nat
  minute : Nat
  second : Nat
deriving DecidableEq

/-- Gregorian leap year. -/
def isLeap (y : Nat) : Bool := (y % 4 == 0 && y % 100 != 0) || y % 400 == 0

/-- Days in a Gregorian month. -/
def daysInMonth (y m : Nat) : Nat :=
  if m == 2 then (if isLeap y then 29 else 28)
  else if m == 4 || m == 6 || m == 9 || m == 11 then 30
  else 31

/-- Value of a decimal digit character. -/
def digitVal (c : Char) : Option Nat :=
  if c.isDigit then some (c.toNat - 48) else Option.none

/-- Two decimal digits. -/
def parse2 (a b : Char) : Option Nat := do
  let x ← digitVal a
  let y ← digitVal b
  pure (10 * x + y)

/-- Four decimal digits. -/
def parse4 (a b c d : Char) : Option Nat := do
  let x ← parse2 a b
  let y ← parse2 c d
  pure (100 * x + y)

/-- `datetime.strptime(s, '%Y-%m-%dT%H:%M:%SZ')`: parse the fixed-layout
timestamp and validate the field ranges; `Option.none` models the
`ValueError` the call raises on malformed input. -/
def strptime (s : String) : Option DateTime :=
  match s.toList with
  | [y1, y2, y3, y4, c1, m1, m2, c2, d1, d2, c3, h1, h2, c4, n1, n2, c5, s1, s2, c6] =>
    if c1 == '-' && c2 == '-' && c3 == 'T' && c4 == ':' && c5 == ':' && c6 == 'Z' then do
      let y ← parse4 y1 y2 y3 y4
      let mo ← parse2 m1 m2
      let d ← parse2 d1 d2
      let h ← parse2 h1 h2
      let mi ← parse2 n1 n2
      let se ← parse2 s1 s2
      if 1 ≤ mo && mo ≤ 12 && 1 ≤ d && d ≤ daysInMonth y mo
          && h ≤ 23 && mi ≤ 59 && se ≤ 59 then
        some ⟨y, mo, d, h, mi, se⟩
      else Option.none
    else Option.none
  | _ => Option.none

/-- Advance a datetime by one calendar day. -/
def incDay (dt : DateTime) : DateTime :=
  if dt.day < daysInMonth dt.year dt.month then { dt with day := dt.day + 1 }
  else if dt.month < 12 then { dt with day := 1, month := dt.month + 1 }
  else { dt with day := 1, month := 1, year := dt.year + 1 }

/-- Advance a datetime by a number of days. -/
def addDays : DateTime → Nat → DateTime
  | dt, 0 => dt
  | dt, n + 1 => addDays (incDay dt) n

/-- `dt + timedelta(minutes=mins)`, carrying into hours and days. -/
def addMinutes (dt : DateTime) (mins : Nat) : DateTime :=
  let tm := dt.minute + mins
  let th := dt.hour + tm / 60
  addDays { dt with minute := tm % 60, hour := th % 24 } (th / 24)

/-- Zero-pad to two digits. -/
def pad2 (n : Nat) : String :=
  if n < 10 then "0" ++ toString n else toString n

/-- Zero-pad to four digits (datetime years are 1..9999). -/
def pad4 (n : Nat) : String :=
  if n < 10 then "000" ++ toString n
  else if n < 100 then "00" ++ toString n
  else if n < 1000 then "0" ++ toString n
  else toString n

/-- `datetime.isoformat()` for a whole-second datetime:
`YYYY-MM-DDTHH:MM:SS`. -/
def isoformat (dt : DateTime) : String :=
  pad4 dt.year ++ "-" ++ pad2 dt.month ++ "-" ++ pad2 dt.day ++ "T"
    ++ pad2 dt.hour ++ ":" ++ pad2 dt.minute ++ ":" ++ pad2 dt.second

/-- Course metadata as `get_user_proctored_exams` reads it (the
`CourseSummary` of the data model): the code parses `course.start` as a
string, `course.end` may be absent, `course.time_limit_mins` may be absent. -/
structure Course where
  id : String
  display_name : String
  start : String
  end_date : Option String
  time_limit_mins : Option Nat
  course_image_url : String
deriving DecidableEq

/-- An exam descriptor returned by the proctoring registry
(`get_all_exams_for_course`); fields other than the proctored flag are opaque
and carried through unmodified. -/
structure Exam where
  exam_id : String
  is_proctored : Bool
deriving DecidableEq

/-- One entry of the aggregated result (the `EnrollmentView` of the data
model). -/
structure EnrollmentView where
  id : String
  name : String
  uri : String
  image_url : String
  start : String
  end_date : String
  exams : List Exam
deriving DecidableEq

/-- Environment of the aggregation: the enrollment table in storage order,
the course catalog keyed by the enrollment's course id (referential integrity
assumed), the proctoring registry, and `request.build_absolute_uri ∘ reverse`
for the course-detail route. -/
structure ExamEnv where
  db : List Enrollment
  courseOf : String → Course
  examsFor : String → List Exam
  buildUri : String → String

/-- data.py lines 32-36: the effective end date. When `course.end` is absent,
parse `course.start`, add `time_limit_mins or 0` minutes, `isoformat()` the
sum and append `'Z'`; `Option.none` models the `ValueError` escaping when
`course.start` does not parse. -/
def computeEnd (c : Course) : Option String :=
  match c.end_date with
  | some s => some s
  | Option.none =>
      (strptime c.start).map (fun dt =>
        isoformat (addMinutes dt (c.time_limit_mins.getD 0)) ++ "Z")

/-- The body of the `for enrolment in enrolments` loop of
`get_user_proctored_exams` (data.py lines 28-53), acting on the result
mapping (a dict modelled as an association list in insertion order). A course
id already present is skipped; otherwise the view is built with the
proctored-only exam list and the whole mapping is re-filtered to entries with
a non-empty exam list. -/
def processEnrolment (env : ExamEnv) (result : List (String × EnrollmentView))
    (e : Enrollment) : Option (List (String × EnrollmentView)) :=
  let course := env.courseOf e.course_id
  let course_id := course.id
  if (result.find? (fun p => p.1 == course_id)).isSome then some result
  else do
    let endStr ← computeEnd course
    let view : EnrollmentView :=
      { id := course_id
        name := course.display_name
        uri := env.buildUri course_id
        image_url := course.course_image_url
        start := course.start
        end_date := endStr
        exams := (env.examsFor course_id).filter (fun x => x.is_proctored) }
    some ((result ++ [(course_id, view)]).filter
      (fun p => p.2.exams.length > 0))

/-- data.py `get_user_proctored_exams(username, request)`: iterate the active
enrollments of `username` in queryset (storage) order — there is no
`order_by` here — threading the result mapping through `processEnrolment`;
`Option.none` models an exception escaping the request. -/
def get_user_proctored_exams (env : ExamEnv) (username : String) :
    Option (List (String × EnrollmentView)) :=
  let enrolments := env.db.filter (fun e => e.is_active && e.username == username)
  enrolments.foldlM (processEnrolment env) []

/-- The per-entry invariant of the aggregated mapping: a non-empty exam list
containing only proctored exams. -/
def viewOk (p : String × EnrollmentView) : Prop :=
  p.2.exams ≠ [] ∧ ∀ x ∈ p.2.exams, x.is_proctored = true

/-- The invariant of the whole mapping: course ids are pairwise distinct and
every entry satisfies `viewOk`. -/
def resOk (res : List (String × EnrollmentView)) : Prop :=
  (res.map Prod.fst).Nodup ∧ ∀ p ∈ res, viewOk p

theorem processEnrolment_resOk {env : ExamEnv}
    {acc acc' : List (String × EnrollmentView)} {e : Enrollment}
    (hacc : resOk acc) (h : processEnrolment env acc e = some acc') :
    resOk acc' := by
  unfold processEnrolment at h
  by_cases hf :
      (acc.find? (fun p => p.1 == (env.courseOf e.course_id).id)).isSome
  · rw [if_pos hf] at h
    cases h
    exact hacc
  · rw [if_neg hf] at h
    cases hend : computeEnd (env.courseOf e.course_id) with
    | none =>
        rw [hend] at h
        simp at h
    | some endStr =>
        rw [hend] at h
        simp only [Option.pure_def, Option.bind_eq_bind, Option.some_bind,
          Option.some.injEq] at h
        subst h
        have hnotin :
            (env.courseOf e.course_id).id ∉ acc.map Prod.fst := by
          have hnone := Option.not_isSome_iff_eq_none.mp hf
          intro hmem
          rcases List.mem_map.mp hmem with ⟨p, hp, hfst⟩
          have := List.find?_eq_none.mp hnone p hp
          simp [hfst] at this
        constructor
        · refine List.Nodup.sublist
            (List.Sublist.map Prod.fst (List.filter_sublist _)) ?_
          rw [List.map_append]
          simp [List.nodup_append, hacc.1, hnotin]
        · intro p hp
          rcases List.mem_filter.mp hp with ⟨hmem, hlen⟩
          have hne : p.2.exams ≠ [] := by
            have := of_decide_eq_true hlen
            exact List.length_pos.mp this
          rcases List.mem_append.mp hmem with hin | hnew
          · exact hacc.2 p hin
          · have hpe : p = ((env.courseOf e.course_id).id, _) :=
              List.mem_singleton.mp hnew
            refine ⟨hne, ?_⟩
            intro x hx
            rw [hpe] at hx
            exact (List.mem_filter.mp hx).2

theorem foldlM_resOk (env : ExamEnv) :
    ∀ (l : List Enrollment) (acc res : List (String × EnrollmentView)),
      resOk acc → List.foldlM (processEnrolment env) acc l = some res →
      resOk res
  | [], acc, res, hacc, h => by
      simp only [List.foldlM_nil] at h
      cases h
      exact hacc
  | e :: l, acc, res, hacc, h => by
      rw [List.foldlM_cons] at h
      cases hp : processEnrolment env acc e with
      | none =>
          rw [hp] at h
          simp at h
      | some acc' =>
          rw [hp] at h
          simp only [Option.bind_eq_bind, Option.some_bind] at h
          exact foldlM_resOk env l acc' res (processEnrolment_resOk hacc hp) h

/-- **C2.** Whenever `get_user_proctored_exams` returns a result, every
course id appears at most once in it, every entry's exam list is non-empty,
and every retained exam is flagged proctored; a course whose retained list
would be empty is absent from the result entirely. -/
theorem C2_proctored_view_invariant (env : ExamEnv) (username : String)
    (res : List (String × EnrollmentView))
    (h : get_user_proctored_exams env username = some res) :
    (res.map Prod.fst).Nodup
      ∧ ∀ p ∈ res, p.2.exams ≠ [] ∧ ∀ x ∈ p.2.exams, x.is_proctored = true := by
  have hres := foldlM_resOk env _ [] res ⟨List.nodup_nil, by simp⟩ h
  exact ⟨hres.1, fun p hp => hres.2 p hp⟩

/-- A concrete aggregation environment: one active enrollment in a course
with one proctored and one non-proctored exam. -/
def c2env : ExamEnv :=
  { db := [⟨"alice", "c1", "honor", true, 1⟩]
    courseOf := fun cid =>
      ⟨cid, "Course One", "2024-01-01T00:00:00Z",
        some "2024-06-01T00:00:00Z", some 60, "/img.png"⟩
    examsFor := fun _ => [⟨"exam1", true⟩, ⟨"exam2", false⟩]
    buildUri := fun cid => "http://host/courses/" ++ cid ++ "/" }

/-- The result `get_user_proctored_exams` computes on `c2env`. -/
def c2res : List (String × EnrollmentView) :=
  [("c1",
    { id := "c1"
      name := "Course One"
      uri := "http://host/courses/c1/"
      image_url := "/img.png"
      start := "2024-01-01T00:00:00Z"
      end_date := "2024-06-01T00:00:00Z"
      exams := [⟨"exam1", true⟩] })]

/-- Closed witness for C2: the invariant evaluated on the concrete
environment. -/
theorem C2_witness :
    get_user_proctored_exams c2env "alice" = some c2res
      ∧ ((c2res.map Prod.fst).Nodup
        ∧ ∀ p ∈ c2res, p.2.exams ≠ []
          ∧ ∀ x ∈ p.2.exams, x.is_proctored = true) :=
  ⟨by decide, C2_proctored_view_invariant c2env "alice" c2res (by decide)⟩

/-- **C3.** For every course with no explicit end date whose start parses,
the aggregation computes the effective end date as
`start + time_limit_mins` minutes (`time_limit_mins` taken as 0 when absent),
rendered by `isoformat` with a trailing `Z` appended. The witness checks the
concrete instance: start `2024-01-01T00:00:00Z` and 90 minutes give
`2024-01-01T01:30:00Z`. -/
theorem C3_effective_end_date (c : Course) (dt : DateTime)
    (hend : c.end_date = Option.none)
    (hparse : strptime c.start = some dt) :
    computeEnd c
      = some (isoformat (addMinutes dt (c.time_limit_mins.getD 0)) ++ "Z") := by
  unfold computeEnd
  rw [hend, hparse]
  rfl

/-- A course with no explicit end date, start `2024-01-01T00:00:00Z` and a
90-minute time limit. -/
def c3course : Course :=
  ⟨"c3", "Course Three", "2024-01-01T00:00:00Z", Option.none, some 90, "/img.png"⟩

/-- Closed witness for C3: the concrete instance of the claim. -/
theorem C3_witness :
    strptime c3course.start = some ⟨2024, 1, 1, 0, 0, 0⟩
      ∧ c3course.end_date = Option.none
      ∧ computeEnd c3course = some "2024-01-01T01:30:00Z" :=
  ⟨by decide, rfl, by
    rw [C3_effective_end_date c3course ⟨2024, 1, 1, 0, 0, 0⟩ rfl (by decide)]
    decide⟩

/-- An aggregation environment whose queryset storage order disagrees with
enrollment creation order: the enrollment created at time 5 (course `c2`) is
stored before the one created at time 3 (course `c1`). Both courses carry a
proctored exam and an explicit end date. -/
def c5env : ExamEnv :=
  { db := [⟨"alice", "c2", "honor", true, 5⟩, ⟨"alice", "c1", "honor", true, 3⟩]
    courseOf := fun cid =>
      ⟨cid, "Course", "2024-01-01T00:00:00Z", some "2024-06-01T00:00:00Z",
        Option.none, "/i.png"⟩
    examsFor := fun _ => [⟨"p", true⟩]
    buildUri := fun cid => "/c/" ++ cid }

/-- The course ids of `c5env`'s user in enrollment creation order (what
`order_by('created')` would produce). -/
def c5creationOrder : List String :=
  (List.insertionSort (fun a b => a.created ≤ b.created)
    (c5env.db.filter (fun e => e.is_active && e.username == "alice"))).map
    Enrollment.course_id

/-- The result `get_user_proctored_exams` computes on `c5env`. -/
def c5res : List (String × EnrollmentView) :=
  [("c2",
    { id := "c2", name := "Course", uri := "/c/c2", image_url := "/i.png"
      start := "2024-01-01T00:00:00Z", end_date := "2024-06-01T00:00:00Z"
      exams := [⟨"p", true⟩] }),
   ("c1",
    { id := "c1", name := "Course", uri := "/c/c1", image_url := "/i.png"
      start := "2024-01-01T00:00:00Z", end_date := "2024-06-01T00:00:00Z"
      exams := [⟨"p", true⟩] })]

/-- **C5 counterexample.** `get_user_proctored_exams` iterates the queryset
without any `order_by`: on `c5env` the result's course order is the storage
order `["c2", "c1"]`, while enrollment creation order is `["c1", "c2"]` — the
result order does not match creation order. -/
theorem C5_counterexample :
    (get_user_proctored_exams c5env "alice").map (List.map Prod.fst)
        = some ["c2", "c1"]
      ∧ c5creationOrder = ["c1", "c2"]
      ∧ (["c2", "c1"] : List String) ≠ ["c1", "c2"] :=
  ⟨by decide, by decide, by decide⟩

theorem foldlM_keys_sublist (env : ExamEnv) :
    ∀ (l : List Enrollment) (acc res : List (String × EnrollmentView))
      (pre : List String),
      (acc.map Prod.fst).Sublist pre →
      List.foldlM (processEnrolment env) acc l = some res →
      (res.map Prod.fst).Sublist
        (pre ++ l.map (fun e => (env.courseOf e.course_id).id))
  | [], acc, res, pre, hpre, h => by
      simp only [List.foldlM_nil] at h
      cases h
      simpa using hpre
  | e :: l, acc, res, pre, hpre, h => by
      rw [List.foldlM_cons] at h
      cases hp : processEnrolment env acc e with
      | none =>
          rw [hp] at h
          simp at h
      | some acc₁ =>
          rw [hp] at h
          simp only [Option.bind_eq_bind, Option.some_bind] at h
          have hstep : (acc₁.map Prod.fst).Sublist
              (pre ++ [(env.courseOf e.course_id).id]) := by
            unfold processEnrolment at hp
            by_cases hf :
                (acc.find? (fun p => p.1 == (env.courseOf e.course_id).id)).isSome
            · rw [if_pos hf] at hp
              cases hp
              exact hpre.trans (List.sublist_append_left _ _)
            · rw [if_neg hf] at hp
              cases hend : computeEnd (env.courseOf e.course_id) with
              | none =>
                  rw [hend] at hp
                  simp at hp
              | some endStr =>
                  rw [hend] at hp
                  simp only [Option.pure_def, Option.bind_eq_bind,
                    Option.some_bind, Option.some.injEq] at hp
                  subst hp
                  refine List.Sublist.trans
                    (List.Sublist.map Prod.fst (List.filter_sublist _)) ?_
                  rw [List.map_append]
                  exact List.Sublist.append hpre (by simp)
          have := foldlM_keys_sublist env l acc₁ res
            (pre ++ [(env.courseOf e.course_id).id]) hstep h
          simpa [List.append_assoc] using this

/-- **C5 amended.** `BuildEnrollmentExamView` applies no sorting of its own:
the courses of the result appear in the order the enrollment queryset
delivers them (first-occurrence order of the unsorted, storage-ordered
query) — a subsequence of the queryset-order course ids — not in enrollment
creation order. -/
theorem C5_amended_query_order (env : ExamEnv) (username : String)
    (res : List (String × EnrollmentView))
    (h : get_user_proctored_exams env username = some res) :
    (res.map Prod.fst).Sublist
      ((env.db.filter (fun e => e.is_active && e.username == username)).map
        (fun e => (env.courseOf e.course_id).id)) := by
  have := foldlM_keys_sublist env _ [] res [] (by simp) h
  simpa using this

/-- Closed witness for the amended C5 on the concrete environment. -/
theorem C5_amended_witness :
    get_user_proctored_exams c5env "alice" = some c5res
      ∧ (c5res.map Prod.fst).Sublist
        ((c5env.db.filter (fun e => e.is_active && e.username == "alice")).map
          (fun e => (c5env.courseOf e.course_id).id)) :=
  ⟨by decide, C5_amended_query_order c5env "alice" c5res (by decide)⟩

/-- A request-body value as it arrives for `is_active`: the code checks
`isinstance(is_active, bool)`, so the model distinguishes booleans from the
other JSON scalar shapes. -/
inductive ReqVal where
  | b (b : Bool)
  | s (s : String)
  | n (n : Int)
deriving DecidableEq

/-- `isinstance(v, bool)`. -/
def ReqVal.isBool : ReqVal → Bool
  | .b _ => true
  | _ => false

/-- How the value renders inside an error message (`format(value=...)`). -/
def ReqVal.pyStr : ReqVal → String
  | .b true => "True"
  | .b false => "False"
  | .s t => t
  | .n i => toString i

/-- The boolean carried by a boolean-typed value. -/
def ReqVal.asBool : ReqVal → Option Bool
  | .b x => some x
  | _ => Option.none

/-- The body of a `PaidMassEnrollment.post` request (the
`BulkEnrollmentRequest` of the data model). `course_id` is
`request.DATA['course_details']['course_id']`. -/
structure BulkReq where
  users : List String
  course_id : Option String
  mode : Option String
  is_active : Option ReqVal
  email_opt_in : Option Bool
deriving DecidableEq

/-- External collaborators of the bulk view: account existence
(`User.objects.get`), course-key validity (`CourseKey.from_string`) and the
per-user embargo check (`embargo_api.get_embargo_response`, for the fixed
course of the request). -/
structure BulkEnv where
  userExists : String → Bool
  validCourseKey : String → Bool
  embargoed : String → Bool

/-- A response of the bulk view: a 400 with a message, a 200 success, or an
embargo response propagated verbatim. -/
inductive Resp where
  | badRequest (msg : String)
  | ok (msg : String)
  | embargo (user : String)
deriving DecidableEq

/-- The host enrollment service `api.get_enrollment(username, course_id)`:
the user's enrollment record for the course, active or not. -/
def get_enrollment (db : List Enrollment) (username course_id : String) :
    Option Enrollment :=
  db.find? (fun e => e.username == username && e.course_id == course_id)

/-- The host enrollment service `api.update_enrollment`: set the mode (and
the activation flag when supplied) of the user's enrollment for the course,
creating the record when absent. -/
def update_enrollment (db : List Enrollment) (username course_id mode : String)
    (is_active : Option Bool) : List Enrollment :=
  match db.find? (fun e => e.username == username && e.course_id == course_id) with
  | some _ =>
      db.map (fun e =>
        if e.username == username && e.course_id == course_id then
          { e with mode := mode, is_active := is_active.getD e.is_active }
        else e)
  | Option.none => db ++ [⟨username, course_id, mode, is_active.getD true, 0⟩]

/-- views.py lines 389-397, the `already_paid` list: users of the request
whose enrollment exists, is active, and whose mode equals the fixed constant
`CourseMode.VERIFIED` (the `elif enrollment['mode'] == CourseMode.VERIFIED`
branch). -/
def alreadyPaid (db : List Enrollment) (users : List String)
    (course_id : String) : List String :=
  users.filter (fun u =>
    match get_enrollment db u course_id with
    | Option.none => false
    | some e => e.is_active && e.mode == VERIFIED)

/-- views.py lines 389-395, the `not_enrolled` list: users with no enrollment
record, or whose record's `is_active` is not `True` (this `elif` precedes the
mode test). -/
def notEnrolled (db : List Enrollment) (users : List String)
    (course_id : String) : List String :=
  users.filter (fun u =>
    match get_enrollment db u course_id with
    | Option.none => true
    | some e => !e.is_active)

/-- views.py line 381: `'{value}' is an invalid enrollment activation
status.` -/
def invalidActivationMsg (v : ReqVal) : String :=
  "'" ++ v.pyStr ++ "' is an invalid enrollment activation status."

/-- views.py lines 398-414: the combined abort message, naming the
already-paid group and the not-enrolled group by username. -/
def combinedMsg (course_id : String) (paid notEnr : List String) : String :=
  "'" ++ course_id ++ "'\n:"
    ++ (if paid = [] then ""
        else "Users: " ++ String.intercalate ", " paid
          ++ " already paid for course.")
    ++ "\n"
    ++ (if notEnr = [] then ""
        else "Users: " ++ String.intercalate ", " notEnr
          ++ " not enrolled for course.")

/-- views.py lines 386-430: classify every user of the request, abort with
the combined 400 when either conflict list is non-empty, otherwise run the
commit loop (`api.update_enrollment` per user, in input order) and answer the
success message. The `email_opt_in` step touches only the preference service,
not the enrollment table, and the returned state is the enrollment table. -/
def classifyAndCommit (db : List Enrollment) (req : BulkReq)
    (course_id mode : String) (is_active : Option Bool) :
    Resp × List Enrollment :=
  let already_paid := alreadyPaid db req.users course_id
  let not_enrolled := notEnrolled db req.users course_id
  if already_paid ≠ [] ∨ not_enrolled ≠ [] then
    (.badRequest (combinedMsg course_id already_paid not_enrolled), db)
  else
    (.ok ("Success for course '" ++ course_id ++ "'."),
      req.users.foldl
        (fun d u => update_enrollment d u course_id mode is_active) db)

/-- views.py `PaidMassEnrollment.post` (lines 317-430): empty-users check,
course-id presence and validity checks, account resolution (collecting every
unknown username), the embargo loop over the resolved users (first restricted
user's response propagated verbatim), the `isinstance(is_active, bool)`
check, then classification and commit. The returned list is the enrollment
table after the request. -/
def post (env : BulkEnv) (db : List Enrollment) (req : BulkReq) :
    Resp × List Enrollment :=
  if req.users = [] then
    (.badRequest "Users must be specified to create a new enrollment.", db)
  else
    match req.course_id with
    | Option.none =>
        (.badRequest "Course ID must be specified to create a new enrollment.",
          db)
    | some cid =>
        if cid = "" then
          (.badRequest
            "Course ID must be specified to create a new enrollment.", db)
        else if env.validCourseKey cid = false then
          (.badRequest ("No course '" ++ cid ++ "' found for enrollment"), db)
        else
          let mode := req.mode.getD VERIFIED
          let bad_users := req.users.filter (fun u => !env.userExists u)
          if bad_users ≠ [] then
            (.badRequest ("Users: " ++ String.intercalate ", " bad_users
              ++ " does not exist."), db)
          else
            match req.users.find? (fun u => env.embargoed u) with
            | some u => (.embargo u, db)
            | Option.none =>
                match req.is_active with
                | some v =>
                    if v.isBool = false then
                      (.badRequest (invalidActivationMsg v), db)
                    else classifyAndCommit db req cid mode v.asBool
                | Option.none =>
                    classifyAndCommit db req cid mode Option.none

theorem post_past_validation (env : BulkEnv) (db : List Enrollment)
    (req : BulkReq) (cid : String)
    (h1 : req.users ≠ [])
    (h2 : req.course_id = some cid)
    (h3 : cid ≠ "")
    (h4 : env.validCourseKey cid = true)
    (h5 : ∀ u ∈ req.users, env.userExists u = true)
    (h6 : ∀ u ∈ req.users, env.embargoed u = false) :
    post env db req =
      match req.is_active with
      | some v =>
          if v.isBool = false then (.badRequest (invalidActivationMsg v), db)
          else classifyAndCommit db req cid (req.mode.getD VERIFIED) v.asBool
      | Option.none =>
          classifyAndCommit db req cid (req.mode.getD VERIFIED) Option.none := by
  have hfil : req.users.filter (fun u => !env.userExists u) = [] :=
    List.filter_eq_nil_iff.mpr (fun u hu => by simp [h5 u hu])
  have hfind : req.users.find? (fun u => env.embargoed u) = Option.none :=
    List.find?_eq_none.mpr (fun u hu => by simp [h6 u hu])
  simp only [post, h2, h4, hfil, hfind, if_neg h1, if_neg h3]
  simp

theorem classifyAndCommit_abort (db : List Enrollment) (req : BulkReq)
    (cid mode : String) (is_active : Option Bool)
    (h : alreadyPaid db req.users cid ≠ [] ∨ notEnrolled db req.users cid ≠ []) :
    classifyAndCommit db req cid mode is_active
      = (.badRequest
          (combinedMsg cid (alreadyPaid db req.users cid)
            (notEnrolled db req.users cid)), db) := by
  unfold classifyAndCommit
  rw [if_pos h]

/-- **C1.** A bulk request that passes input validation and the embargo loop,
but in which at least one user is classified already-in-target-mode or
not-currently-enrolled, aborts with the single combined 400 message listing
both groups by username — and the enrollment table it returns is exactly the
table it started from: no user's enrollment is mutated. -/
theorem C1_all_or_nothing_abort (env : BulkEnv) (db : List Enrollment)
    (req : BulkReq) (cid : String)
    (h1 : req.users ≠ [])
    (h2 : req.course_id = some cid)
    (h3 : cid ≠ "")
    (h4 : env.validCourseKey cid = true)
    (h5 : ∀ u ∈ req.users, env.userExists u = true)
    (h6 : ∀ u ∈ req.users, env.embargoed u = false)
    (h7 : req.is_active = Option.none ∨ ∃ x, req.is_active = some (ReqVal.b x))
    (h8 : alreadyPaid db req.users cid ≠ [] ∨ notEnrolled db req.users cid ≠ []) :
    post env db req
      = (Resp.badRequest
          (combinedMsg cid (alreadyPaid db req.users cid)
            (notEnrolled db req.users cid)), db) := by
  rw [post_past_validation env db req cid h1 h2 h3 h4 h5 h6]
  rcases h7 with h7 | ⟨x, h7⟩
  · rw [h7]
    exact classifyAndCommit_abort db req cid _ _ h8
  · rw [h7]
    simp only [ReqVal.isBool]
    simp only [Bool.true_eq_false, if_false]
    exact classifyAndCommit_abort db req cid _ _ h8

/-- An environment where every username resolves, every course key is valid
and nobody is embargoed. -/
def bulkEnvAll : BulkEnv := ⟨fun _ => true, fun _ => true, fun _ => false⟩

/-- Three active enrollments: `u1` already verified, `u2` and `u3` honor. -/
def c1db : List Enrollment :=
  [⟨"u1", "c1", "verified", true, 0⟩,
   ⟨"u2", "c1", "honor", true, 0⟩,
   ⟨"u3", "c1", "honor", true, 0⟩]

/-- A bulk request for the three users of `c1db`. -/
def c1req : BulkReq :=
  ⟨["u1", "u2", "u3"], some "c1", Option.none, Option.none, Option.none⟩

/-- Closed witness for C1: one of three users already verified aborts the
whole batch with the combined message and leaves the table unchanged. -/
theorem C1_witness :
    alreadyPaid c1db c1req.users "c1" = ["u1"]
      ∧ post bulkEnvAll c1db c1req
        = (Resp.badRequest
            (combinedMsg "c1" (alreadyPaid c1db c1req.users "c1")
              (notEnrolled c1db c1req.users "c1")), c1db) :=
  ⟨by decide,
    C1_all_or_nothing_abort bulkEnvAll c1db c1req "c1" (by decide) rfl
      (by decide) rfl (by decide) (by decide) (Or.inl rfl)
      (Or.inl (by decide))⟩

/-- One user actively enrolled in mode `honor`. -/
def c4db : List Enrollment := [⟨"u1", "c1", "honor", true, 0⟩]

/-- A bulk request whose requested mode is `honor` — equal to `u1`'s current
mode. -/
def c4req : BulkReq :=
  ⟨["u1"], some "c1", some "honor", Option.none, Option.none⟩

/-- **C4 counterexample.** The classification compares against the fixed
constant `CourseMode.VERIFIED`, not the requested mode: with requested mode
`honor`, a user whose active enrollment mode equals the requested mode is
*not* classified already-in-target-mode (and, conversely, a user enrolled
`verified` is, although `verified` is not the target). -/
theorem C4_counterexample :
    c4req.mode.getD VERIFIED = "honor"
      ∧ get_enrollment c4db "u1" "c1" = some ⟨"u1", "c1", "honor", true, 0⟩
      ∧ alreadyPaid c4db c4req.users "c1" = []
      ∧ alreadyPaid [⟨"u1", "c1", "verified", true, 0⟩] c4req.users "c1"
        = ["u1"] := by
  decide

/-- **C4 amended.** A user is classified already-in-target-mode
(`already_paid`) exactly when they are in the request, their enrollment
record exists and is active, and its mode equals the fixed constant
`CourseMode.VERIFIED` — independently of the mode the request asked for. -/
theorem C4_amended_fixed_verified (db : List Enrollment) (users : List String)
    (cid : String) (u : String) :
    u ∈ alreadyPaid db users cid
      ↔ u ∈ users ∧ ∃ e, get_enrollment db u cid = some e
          ∧ e.is_active = true ∧ e.mode = VERIFIED := by
  unfold alreadyPaid
  constructor
  · intro hp
    rcases List.mem_filter.mp hp with ⟨hu, hp2⟩
    cases hge : get_enrollment db u cid with
    | none =>
        rw [hge] at hp2
        simp at hp2
    | some e =>
        rw [hge] at hp2
        simp at hp2
        exact ⟨hu, e, rfl, hp2.1, hp2.2⟩
  · rintro ⟨hu, e, hge, ha, hm⟩
    refine List.mem_filter.mpr ⟨hu, ?_⟩
    rw [hge]
    simp [ha, hm]

/-- The embargo environment of the C7 counterexample: `u1` exists, every
course key is valid, and `u1` is embargoed. -/
def c7env : BulkEnv := ⟨fun _ => true, fun _ => true, fun u => u == "u1"⟩

/-- A bulk request carrying a non-boolean `is_active` for the embargoed
user. -/
def c7req : BulkReq :=
  ⟨["u1"], some "c1", Option.none, some (ReqVal.s "yes"), Option.none⟩

/-- **C7 counterexample.** With a non-boolean `is_active` *and* an embargoed
user, the view answers the embargo response, not the invalid-activation 400:
the embargo loop (views.py lines 367-371) runs before the
`isinstance(is_active, bool)` check (lines 375-383), so the activation check
is not a fail-first Phase-1 validation. -/
theorem C7_counterexample :
    c7req.is_active = some (ReqVal.s "yes")
      ∧ (ReqVal.s "yes").isBool = false
      ∧ post c7env [] c7req = (Resp.embargo "u1", [])
      ∧ Resp.embargo "u1"
        ≠ Resp.badRequest (invalidActivationMsg (ReqVal.s "yes")) := by
  decide

/-- **C7 amended.** The invalid-activation check runs after account
resolution and after the embargo loop: when the request passes those (users
non-empty, course id present and valid, every username resolves, nobody
embargoed) and `is_active` is supplied non-boolean, the view fails with the
invalid-activation 400 — before classification and with the enrollment table
unchanged. -/
theorem C7_amended_after_embargo (env : BulkEnv) (db : List Enrollment)
    (req : BulkReq) (cid : String) (v : ReqVal)
    (h1 : req.users ≠ [])
    (h2 : req.course_id = some cid)
    (h3 : cid ≠ "")
    (h4 : env.validCourseKey cid = true)
    (h5 : ∀ u ∈ req.users, env.userExists u = true)
    (h6 : ∀ u ∈ req.users, env.embargoed u = false)
    (hv : req.is_active = some v)
    (hb : v.isBool = false) :
    post env db req = (Resp.badRequest (invalidActivationMsg v), db) := by
  rw [post_past_validation env db req cid h1 h2 h3 h4 h5 h6, hv]
  simp [hb]

/-- A request like `c7req` but in an environment with no embargo. -/
def c7reqOk : BulkReq :=
  ⟨["u1"], some "c1", Option.none, some (ReqVal.s "yes"), Option.none⟩

/-- Closed witness for the amended C7: without an embargoed user the
non-boolean `is_active` yields the invalid-activation 400 and leaves the
table unchanged. -/
theorem C7_amended_witness :
    post bulkEnvAll [] c7reqOk
      = (Resp.badRequest (invalidActivationMsg (ReqVal.s "yes")), []) :=
  C7_amended_after_embargo bulkEnvAll [] c7reqOk "c1" (ReqVal.s "yes")
    (by decide) rfl (by decide) rfl (by decide) (by decide) rfl rfl

/-- **C10.** The two conflict lists are disjoint — a user classified
already-in-target-mode is not classified not-currently-enrolled — and the
not-enrolled test takes precedence: a user whose record exists with
`is_active` false is classified not-currently-enrolled and kept out of
`already_paid`, whatever the record's mode (in particular `verified`). -/
theorem C10_classification_disjoint (db : List Enrollment)
    (users : List String) (cid : String) (u : String) :
    (u ∈ alreadyPaid db users cid → u ∉ notEnrolled db users cid)
      ∧ (∀ e, get_enrollment db u cid = some e → e.is_active = false →
          u ∈ users →
          u ∈ notEnrolled db users cid ∧ u ∉ alreadyPaid db users cid) := by
  constructor
  · intro hp hn
    rcases List.mem_filter.mp hp with ⟨_, hp2⟩
    rcases List.mem_filter.mp hn with ⟨_, hn2⟩
    cases hge : get_enrollment db u cid with
    | none =>
        rw [hge] at hp2
        simp at hp2
    | some e =>
        rw [hge] at hp2 hn2
        simp at hp2 hn2
        simp [hp2.1] at hn2
  · intro e hge hact hu
    constructor
    · refine List.mem_filter.mpr ⟨hu, ?_⟩
      rw [hge]
      simp [hact]
    · intro hp
      rcases List.mem_filter.mp hp with ⟨_, hp2⟩
      rw [hge] at hp2
      simp [hact] at hp2

/-- `u1` has an inactive `verified` enrollment, `u2` an active `verified`
one. -/
def c10db : List Enrollment :=
  [⟨"u1", "c1", "verified", false, 0⟩, ⟨"u2", "c1", "verified", true, 0⟩]

/-- Closed witness for C10: the inactive `verified` user lands in
`not_enrolled` and not in `already_paid`; the active `verified` user, being
in `already_paid`, is not in `not_enrolled`. -/
theorem C10_witness :
    ("u1" ∈ notEnrolled c10db ["u1", "u2"] "c1"
        ∧ "u1" ∉ alreadyPaid c10db ["u1", "u2"] "c1")
      ∧ "u2" ∉ notEnrolled c10db ["u1", "u2"] "c1" :=
  ⟨(C10_classification_disjoint c10db ["u1", "u2"] "c1" "u1").2
      ⟨"u1", "c1", "verified", false, 0⟩ (by decide) rfl (by decide),
    (C10_classification_disjoint c10db ["u1", "u2"] "c1" "u2").1 (by decide)⟩

end OpenEdxApiExt
